import Mathlib

/-!
Verification development for the dynamic SQL CRUD tool layer
(source file: `tools.js`).  The JavaScript functions are shallowly
embedded as Lean functions: scalar JS values become `Value`, query
parameters become `Param` (a scalar or an array, as accepted by the
parameterized-query primitive), the connection pool becomes an oracle
`Db : Stmt → Except String (List Row)`, and every exported operation
becomes a function returning its `{success, ...}` envelope together with
the list of statements it issued.  Exception control flow is modelled
with `Except String`; the `try/catch` wrapper of each operation maps a
thrown error to the `success:false` envelope exactly as the source does.
Error-message strings follow the source; JS quote characters inside
messages are omitted where Lean string lexing would be awkward, which no
property below depends on.
-/

/-- Scalar JavaScript values as they occur in rows, criteria and ids. -/
inductive Value where
  | null
  | bool (b : Bool)
  | num (n : Int)
  | str (s : String)
deriving Repr, DecidableEq, BEq

/-- JavaScript truthiness on scalar values (`!v` in the source is `!v.truthy`). -/
def Value.truthy : Value → Bool
  | .null => false
  | .bool b => b
  | .num n => n != 0
  | .str s => s != ""

/-- A positional query parameter: a scalar, or an array value as bound
for `id = ANY($1)`. -/
inductive Param where
  | scalar (v : Value)
  | array (vs : List Value)
deriving Repr, DecidableEq

/-- A row is a JS object: an association list from column name to value,
in key insertion order. -/
abbrev Row := List (String × Value)

/-- A parameterized SQL statement as handed to `pool.query`. -/
structure Stmt where
  sql : String
  params : List Param
deriving Repr, DecidableEq

/-- The parameterized-query execution primitive (the pool): it returns
rows or fails with a store error message. -/
abbrev Db := Stmt → Except String (List Row)

/-- The uniform response envelope of every exposed operation. -/
inductive Envelope (α : Type) where
  | ok (data : α)
  | fail (message : String)
deriving Repr, DecidableEq

/-- The envelope shape: success with data, or failure with a message. -/
def isEnvelopeResult {α : Type} (e : Envelope α) : Prop :=
  (∃ d, e = Envelope.ok d) ∨ (∃ m, e = Envelope.fail m)

/-- First character class of the identifier regex `[a-zA-Z_]`. -/
def isIdentStartChar (c : Char) : Bool :=
  c.isAlpha || c == '_'

/-- Subsequent character class of the identifier regex `[a-zA-Z0-9_]`. -/
def isIdentChar (c : Char) : Bool :=
  c.isAlphanum || c == '_'

/-- Source `validateName`, as the boolean regex test
`/^[a-zA-Z_][a-zA-Z0-9_]*$/.test(name)`. -/
def validateName (name : String) : Bool :=
  match name.data with
  | [] => false
  | c :: cs => isIdentStartChar c && cs.all isIdentChar

/-- Source `validateName` with its throwing behaviour made explicit. -/
def validateNameE (name : String) : Except String Unit :=
  if validateName name then Except.ok ()
  else Except.error ("Invalid table/schema name: " ++ name)

/-- Spec-side reading of the pattern from the specification text: the
first character is in `A`-`Z`, `a`-`z` or is `_`; every later character
is in `A`-`Z`, `a`-`z`, `0`-`9` or is `_`; the string is non-empty.
Written from the words of the spec, to be compared with the source
function `validateName`. -/
def specIdentMatch (s : String) : Prop :=
  match s.data with
  | [] => False
  | c :: cs =>
    (('A' ≤ c ∧ c ≤ 'Z') ∨ ('a' ≤ c ∧ c ≤ 'z') ∨ c = '_') ∧
    ∀ d ∈ cs, ('A' ≤ d ∧ d ≤ 'Z') ∨ ('a' ≤ d ∧ d ≤ 'z') ∨ ('0' ≤ d ∧ d ≤ '9') ∨ d = '_'

/-- A caller-supplied column specification for table creation. -/
structure ColumnSpec where
  name : String
  type : String
  primaryKey : Bool
deriving Repr, DecidableEq

/-- The three baseline columns every created table gains. -/
def defaultColumns : List ColumnSpec :=
  [⟨"id", "integer", true⟩, ⟨"created_at", "timestamp", false⟩, ⟨"updated_at", "timestamp", false⟩]

/-- Source merge of baseline and caller columns: baseline first, caller
columns kept only when no baseline column has the same name. -/
def allColumns (columns : List ColumnSpec) : List ColumnSpec :=
  defaultColumns ++ columns.filter (fun col => !(defaultColumns.any (fun d => d.name == col.name)))

/-- The fixed type vocabulary accepted by the column-definition switch. -/
def supportedTypes : List String :=
  ["integer", "text", "timestamp", "boolean", "decimal"]

/-- Source switch mapping a column type to its SQL definition fragment;
unknown types throw. -/
def columnDef (col : ColumnSpec) : Except String String :=
  match col.type with
  | "integer" => Except.ok (col.name ++ " SERIAL" ++ (if col.primaryKey then " PRIMARY KEY" else ""))
  | "text" => Except.ok (col.name ++ " TEXT NOT NULL")
  | "timestamp" => Except.ok (col.name ++ " TIMESTAMPTZ DEFAULT NOW()")
  | "boolean" => Except.ok (col.name ++ " BOOLEAN DEFAULT FALSE")
  | "decimal" => Except.ok (col.name ++ " DECIMAL(10,2)")
  | t => Except.error ("Unsupported column type: " ++ t)

/-- Map a throwing function over a list, stopping at the first error
(the behaviour of `.map` over a callback that may throw). -/
def mapExcept {α β ε : Type} (f : α → Except ε β) : List α → Except ε (List β)
  | [] => Except.ok []
  | a :: as =>
    match f a with
    | .error e => .error e
    | .ok b =>
      match mapExcept f as with
      | .error e => .error e
      | .ok bs => .ok (b :: bs)

/-- Source column-definition assembly: map `columnDef` then join with commas. -/
def columnDefinitions (cols : List ColumnSpec) : Except String String :=
  match mapExcept columnDef cols with
  | .error e => .error e
  | .ok frags => .ok (", ".intercalate frags)

/-- The throwing body of `createDynamicTable`, producing the single
CREATE statement; `columns = none` models a non-array argument. -/
def createBody (schemaName : String) (columns : Option (List ColumnSpec)) : Except String Stmt :=
  match validateNameE schemaName with
  | .error e => .error e
  | .ok _ =>
    match columns with
    | none => .error "The \"columns\" parameter must be a non-empty array."
    | some cols =>
      if cols.isEmpty then .error "The \"columns\" parameter must be a non-empty array."
      else
        match columnDefinitions (allColumns cols) with
        | .error e => .error e
        | .ok defs =>
          .ok ⟨"CREATE TABLE IF NOT EXISTS " ++ schemaName ++ " (" ++ defs ++ ")", []⟩

/-- Source `createDynamicTable` with its try/catch, also returning the
statements it issued to the pool. -/
def createDynamicTableRun (schemaName : String) (columns : Option (List ColumnSpec))
    (db : Db) : Envelope String × List Stmt :=
  match createBody schemaName columns with
  | .error _ => (.fail ("Failed to create " ++ schemaName ++ " table."), [])
  | .ok stmt =>
    match db stmt with
    | .ok _ => (.ok (schemaName ++ " table created successfully."), [stmt])
    | .error _ => (.fail ("Failed to create " ++ schemaName ++ " table."), [stmt])

/-- Source `createDynamicTable`: the envelope alone. -/
def createDynamicTable (schemaName : String) (columns : Option (List ColumnSpec))
    (db : Db) : Envelope String :=
  (createDynamicTableRun schemaName columns db).1

/-- Catalog query of `checkTableExists` (whitespace normalized). -/
def existsQuery : String :=
  "SELECT EXISTS (SELECT 1 FROM information_schema.tables WHERE table_name = $1) AS exists"

/-- Catalog query of `getTableColumns` (whitespace normalized). -/
def columnsQuery : String :=
  "SELECT column_name, data_type, is_nullable FROM information_schema.columns WHERE table_name = $1"

/-- Source `checkTableExists`: reads `res.rows[0].exists`; a store error
is rethrown wrapped, an empty row set models the JS property access on
`undefined` (also thrown wrapped). -/
def checkTableExists (db : Db) (tableName : String) : Except String Value :=
  match db ⟨existsQuery, [Param.scalar (Value.str tableName)]⟩ with
  | .error e => .error ("Error checking table existence: " ++ e)
  | .ok [] => .error "Error checking table existence: Cannot read properties of undefined (reading exists)"
  | .ok (r :: _) => .ok ((r.lookup "exists").getD Value.null)

/-- Column description returned by `getTableColumns`. -/
structure ColumnInfo where
  name : Value
  type : Value
  nullable : Bool
deriving Repr, DecidableEq

/-- Source row mapping in `getTableColumns`: `is_nullable === "YES"`. -/
def rowToColumnInfo (r : Row) : ColumnInfo :=
  ⟨(r.lookup "column_name").getD Value.null,
   (r.lookup "data_type").getD Value.null,
   (r.lookup "is_nullable") == some (Value.str "YES")⟩

/-- Source `getTableColumns` with issued statements (message quote
characters around the table name omitted). -/
def getTableColumnsRun (tableName : String) (db : Db) : Envelope (List ColumnInfo) × List Stmt :=
  let e1 : Stmt := ⟨existsQuery, [Param.scalar (Value.str tableName)]⟩
  match checkTableExists db tableName with
  | .error e => (.fail ("Error fetching columns: " ++ e), [e1])
  | .ok v =>
    if v.truthy = false then
      (.fail ("Table " ++ tableName ++ " does not exist."), [e1])
    else
      let s2 : Stmt := ⟨columnsQuery, [Param.scalar (Value.str tableName)]⟩
      match db s2 with
      | .error e => (.fail ("Error fetching columns: " ++ e), [e1, s2])
      | .ok rows => (.ok (rows.map rowToColumnInfo), [e1, s2])

/-- Source `getTableColumns`: the envelope alone. -/
def getTableColumns (tableName : String) (db : Db) : Envelope (List ColumnInfo) :=
  (getTableColumnsRun tableName db).1

/-- The `data` argument of `addDataToTable`: a single row, a list of
rows, or a falsy non-value (null/undefined). -/
inductive InsertData where
  | nullData
  | one (r : Row)
  | many (rs : List Row)
deriving Repr, DecidableEq

/-- Source input check and normalization of `addDataToTable`:
`!data || (Array.isArray(data) && data.length === 0)` throws, then a
single row is wrapped in a one-element list. -/
def normalizeInsertData : InsertData → Except String (List Row)
  | .nullData => .error "No data provided."
  | .one r => .ok [r]
  | .many rs => if rs.isEmpty then .error "No data provided." else .ok rs

/-- Source column-set extraction: `Object.keys(data[0])`. -/
def insertColumns (rs : List Row) : List String :=
  (rs.headD []).map Prod.fst

/-- Placeholder numbers of row `i` in the multi-row VALUES clause:
`$ (i * columns.length + j + 1)` for each column index `j`. -/
def rowPlaceholders (nCols i : Nat) : List Nat :=
  (List.range nCols).map (fun j => i * nCols + j + 1)

/-- All placeholder numbers of the VALUES clause, row-major. -/
def insertPlaceholderNums (nRows nCols : Nat) : List Nat :=
  (List.range nRows).flatMap (rowPlaceholders nCols)

/-- Source VALUES-clause text: one parenthesized group per row. -/
def placeholdersString (nRows nCols : Nat) : String :=
  ", ".intercalate ((List.range nRows).map (fun i =>
    "(" ++ ", ".intercalate ((rowPlaceholders nCols i).map (fun n => "$" ++ toString n)) ++ ")"))

/-- Source bound value list: `data.flatMap(Object.values)`. -/
def insertValues (rs : List Row) : List Value :=
  rs.flatMap (fun r => r.map Prod.snd)

/-- Source INSERT statement assembly. -/
def buildInsertStmt (tableName : String) (rs : List Row) : Stmt :=
  ⟨"INSERT INTO " ++ tableName ++ " (" ++ ", ".intercalate (insertColumns rs) ++ ") VALUES "
     ++ placeholdersString rs.length (insertColumns rs).length ++ " RETURNING *",
   (insertValues rs).map Param.scalar⟩

/-- The throwing body of `addDataToTable`. -/
def insertBody (tableName : String) (data : InsertData) : Except String Stmt :=
  match validateNameE tableName with
  | .error e => .error e
  | .ok _ =>
    match normalizeInsertData data with
    | .error e => .error e
    | .ok rs => .ok (buildInsertStmt tableName rs)

/-- Source `addDataToTable` with its try/catch and issued statements. -/
def addDataToTableRun (tableName : String) (data : InsertData) (db : Db) :
    Envelope (List Row) × List Stmt :=
  match insertBody tableName data with
  | .error _ => (.fail "Failed to add data.", [])
  | .ok stmt =>
    match db stmt with
    | .ok rows => (.ok rows, [stmt])
    | .error _ => (.fail "Failed to add data.", [stmt])

/-- Source `addDataToTable`: the envelope alone. -/
def addDataToTable (tableName : String) (data : InsertData) (db : Db) : Envelope (List Row) :=
  (addDataToTableRun tableName data db).1

/-- One entry of the `updates` list of `updateDataInTable`; `data = none`
models a missing/null data field. -/
structure UpdateEntry where
  id : Value
  data : Option Row
deriving Repr, DecidableEq

/-- SET-clause parts of one update entry: column name paired with its
local placeholder number `i + 1`, in key order. -/
def setClauseParts (r : Row) : List (String × Nat) :=
  r.enum.map (fun p => (p.2.1, p.1 + 1))

/-- Text of one SET-clause part: `col = $n`. -/
def renderSetPart (p : String × Nat) : String :=
  p.1 ++ " = $" ++ toString p.2

/-- Source per-entry UPDATE statement builder: throws unless the entry
has a truthy id and a non-empty data mapping; otherwise the statement
uses local placeholders `$1..$k` for the data values and `$(k+1)` for
the id. -/
def buildUpdateStmt (tableName : String) (e : UpdateEntry) : Except String Stmt :=
  if e.id.truthy = false then
    .error "Each update must have an \"id\" and non-empty \"data\"."
  else
    match e.data with
    | none => .error "Each update must have an \"id\" and non-empty \"data\"."
    | some r =>
      if r.isEmpty then .error "Each update must have an \"id\" and non-empty \"data\"."
      else
        .ok ⟨"UPDATE " ++ tableName ++ " SET "
               ++ ", ".intercalate ((setClauseParts r).map renderSetPart)
               ++ ", updated_at = NOW() WHERE id = $" ++ toString (r.length + 1)
               ++ " RETURNING *",
             r.map (fun p => Param.scalar p.2) ++ [Param.scalar e.id]⟩

/-- All per-entry UPDATE statements of a batch, failing at the first
invalid entry. -/
def buildUpdateStmts (tableName : String) (updates : List UpdateEntry) : Except String (List Stmt) :=
  mapExcept (buildUpdateStmt tableName) updates

/-- The statements handed to the pool by the `updates.forEach` loop:
entries before the first invalid one have been issued when the loop
throws; the error, if any, is the first entry error. -/
def issuedUpdateStmts (tableName : String) : List UpdateEntry → List Stmt × Option String
  | [] => ([], none)
  | e :: rest =>
    match buildUpdateStmt tableName e with
    | .error m => ([], some m)
    | .ok s =>
      match issuedUpdateStmts tableName rest with
      | (ss, err) => (s :: ss, err)

/-- One schema change request of `updateDataInTable`. -/
structure SchemaChange where
  column : String
  type : Option String
  constraint : Option String
deriving Repr, DecidableEq

/-- JS truthiness of an optional string field (absent and empty are falsy). -/
def optTruthy (o : Option String) : Bool :=
  match o with
  | none => false
  | some s => s != ""

/-- JS `toUpperCase` on ASCII strings, as a character-list map (kept
directly computable). -/
def strToUpper (s : String) : String :=
  ⟨s.data.map Char.toUpper⟩

/-- The generated constraint name `<table>_<column>_constraint`. -/
def constraintNameOf (tableName column : String) : String :=
  tableName ++ "_" ++ column ++ "_constraint"

/-- The ALTER statements of the schema evolution engine, kept structured
so that their effect on constraint state can be interpreted. -/
inductive AlterStmt where
  | setType (table column ty : String)
  | dropConstraintIfExists (table name : String)
  | addUniqueConstraint (table name column : String)
  | setNotNull (table column : String)
  | dropNotNull (table column : String)
deriving Repr, DecidableEq

/-- SQL text of an ALTER statement, as assembled by the source. -/
def AlterStmt.render : AlterStmt → String
  | .setType t c ty => "ALTER TABLE " ++ t ++ " ALTER COLUMN " ++ c ++ " SET DATA TYPE " ++ ty
  | .dropConstraintIfExists t n => "ALTER TABLE " ++ t ++ " DROP CONSTRAINT IF EXISTS " ++ n
  | .addUniqueConstraint t n c => "ALTER TABLE " ++ t ++ " ADD CONSTRAINT " ++ n ++ " UNIQUE (" ++ c ++ ")"
  | .setNotNull t c => "ALTER TABLE " ++ t ++ " ALTER COLUMN " ++ c ++ " SET NOT NULL"
  | .dropNotNull t c => "ALTER TABLE " ++ t ++ " ALTER COLUMN " ++ c ++ " DROP NOT NULL"

/-- Source per-request ALTER statement list: type change first when a
type is given, then the constraint dispatch on the upper-cased
constraint; unknown constraints throw. -/
def buildAlterQueries (tableName : String) (sc : SchemaChange) : Except String (List AlterStmt) :=
  if sc.column == "" || (!optTruthy sc.type && !optTruthy sc.constraint) then
    .error "Each schema change must have a \"column\" and either \"type\" or \"constraint\"."
  else
    let cname := constraintNameOf tableName sc.column
    let base :=
      if optTruthy sc.type then [AlterStmt.setType tableName sc.column ((sc.type).getD "")]
      else []
    if optTruthy sc.constraint then
      match strToUpper ((sc.constraint).getD "") with
      | "UNIQUE" =>
        .ok (base ++ [AlterStmt.dropConstraintIfExists tableName cname,
                      AlterStmt.addUniqueConstraint tableName cname sc.column])
      | "NOT NULL" => .ok (base ++ [AlterStmt.setNotNull tableName sc.column])
      | "NULL" => .ok (base ++ [AlterStmt.dropNotNull tableName sc.column])
      | _ => .error ("Unsupported constraint: " ++ (sc.constraint).getD "")
    else
      .ok base

/-- Sequential execution of the ALTER statements of one request,
awaiting each; stops at the first store error. -/
def execAlters (db : Db) : List AlterStmt → List Stmt × Option String
  | [] => ([], none)
  | a :: rest =>
    let s : Stmt := ⟨a.render, []⟩
    match db s with
    | .error e => ([s], some e)
    | .ok _ =>
      match execAlters db rest with
      | (ss, err) => (s :: ss, err)

/-- Sequential processing of the schema change list, in list order. -/
def processSchemaChanges (tableName : String) (db : Db) : List SchemaChange → List Stmt × Option String
  | [] => ([], none)
  | sc :: rest =>
    match buildAlterQueries tableName sc with
    | .error m => ([], some m)
    | .ok alters =>
      match execAlters db alters with
      | (ss, some e) => (ss, some e)
      | (ss, none) =>
        match processSchemaChanges tableName db rest with
        | (ss2, err2) => (ss ++ ss2, err2)

/-- `Promise.all` over the update statements: first error in array
order, else the concatenation of all result rows. -/
def collectResults (db : Db) : List Stmt → Except String (List Row)
  | [] => .ok []
  | s :: rest =>
    match db s with
    | .error e => .error e
    | .ok rows =>
      match collectResults db rest with
      | .error e => .error e
      | .ok more => .ok (rows ++ more)

/-- The catch clause of `updateDataInTable`: `error.message || default`. -/
def updateFailMsg (m : String) : String :=
  if m == "" then "Failed to update data/schema." else m

/-- Modelled JS TypeError text for reading `.length` of null. -/
def nullLengthMsg : String := "Cannot read properties of null (reading length)"

/-- Modelled JS TypeError text for iterating null. -/
def notIterableMsg : String := "schemaChanges is not iterable"

/-- Message of the throw when both lists are empty (source quote
characters omitted). -/
def bothEmptyMsg : String := "Either updates or schemaChanges must be provided."

/-- Core of `updateDataInTable` once the length checks passed: issue the
per-entry UPDATE statements, run the schema changes sequentially, then
await all update results. -/
def updateCore (tableName : String) (us : List UpdateEntry) (ss : List SchemaChange)
    (db : Db) : Envelope (List Row) × List Stmt :=
  match issuedUpdateStmts tableName us with
  | (stmts, some m) => (.fail (updateFailMsg m), stmts)
  | (stmts, none) =>
    match processSchemaChanges tableName db ss with
    | (alog, some e) => (.fail (updateFailMsg e), stmts ++ alog)
    | (alog, none) =>
      match collectResults db stmts with
      | .error e => (.fail (updateFailMsg e), stmts ++ alog)
      | .ok rows => (.ok rows, stmts ++ alog)

/-- Source `updateDataInTable` with its try/catch and issued statements;
`none` for either list models a null (non-array) argument. -/
def updateRun (tableName : String) (updates : Option (List UpdateEntry))
    (schemaChanges : Option (List SchemaChange)) (db : Db) : Envelope (List Row) × List Stmt :=
  if validateName tableName = false then
    (.fail (updateFailMsg ("Invalid table/schema name: " ++ tableName)), [])
  else
    match updates with
    | none => (.fail (updateFailMsg nullLengthMsg), [])
    | some us =>
      match schemaChanges with
      | none =>
        if us.isEmpty then (.fail (updateFailMsg nullLengthMsg), [])
        else
          match issuedUpdateStmts tableName us with
          | (stmts, some m) => (.fail (updateFailMsg m), stmts)
          | (stmts, none) => (.fail (updateFailMsg notIterableMsg), stmts)
      | some ss =>
        if us.isEmpty && ss.isEmpty then (.fail (updateFailMsg bothEmptyMsg), [])
        else updateCore tableName us ss db

/-- Source `updateDataInTable`: the envelope alone. -/
def updateDataInTable (tableName : String) (updates : Option (List UpdateEntry))
    (schemaChanges : Option (List SchemaChange)) (db : Db) : Envelope (List Row) :=
  (updateRun tableName updates schemaChanges db).1

/-- A criteria value: a plain scalar, or an object mapping operator keys
to bounds. -/
inductive CritVal where
  | scalar (v : Value)
  | obj (m : List (String × Value))
deriving Repr, DecidableEq

/-- One generated WHERE condition: column, SQL comparison operator, and
positional placeholder number. -/
structure Cond where
  col : String
  sqlOp : String
  idx : Nat
deriving Repr, DecidableEq

/-- Text of one condition: `col <op> $n`. -/
def renderCond (c : Cond) : String :=
  c.col ++ " " ++ c.sqlOp ++ " $" ++ toString c.idx

/-- The source operator table, in its fixed iteration order. -/
def operators : List (String × String) :=
  [("$lt", "<"), ("$gt", ">"), ("$lte", "<="), ("$gte", ">="), ("$ne", "<>")]

/-- The source `for..of` loop over the operator table: the first
operator key present in the mapping wins. -/
def findOp : List (String × String) → List (String × Value) → Option (String × String × Value)
  | [], _ => none
  | (op, sqlOp) :: rest, m =>
    match m.lookup op with
    | some v => some (op, sqlOp, v)
    | none => findOp rest m

/-- Source criteria traversal of `searchDataInTable`, accumulating
conditions and bound values; each condition's placeholder is
`values.length + 1` at the time it is pushed. -/
def buildConditions : List (String × CritVal) → List Cond → List Value →
    Except String (List Cond × List Value)
  | [], conds, vals => .ok (conds, vals)
  | (key, cv) :: rest, conds, vals =>
    match cv with
    | .scalar v => buildConditions rest (conds ++ [⟨key, "=", vals.length + 1⟩]) (vals ++ [v])
    | .obj m =>
      match findOp operators m with
      | some (_, sqlOp, v) =>
        buildConditions rest (conds ++ [⟨key, sqlOp, vals.length + 1⟩]) (vals ++ [v])
      | none => .error ("Unsupported operator in criteria for key: " ++ key)

/-- Source query assembly: WHERE clause only when conditions exist,
joined with AND. -/
def searchSql (tableName : String) (conds : List Cond) : String :=
  "SELECT * FROM " ++ tableName ++
    (if conds.isEmpty then "" else " WHERE " ++ " AND ".intercalate (conds.map renderCond))

/-- Source `searchDataInTable` with its try/catch and issued statements;
`criteria = none` models a null criteria argument (the JS
`Object.entries(null)` TypeError is caught by the operation). -/
def searchRun (tableName : String) (criteria : Option (List (String × CritVal))) (db : Db) :
    Envelope (List Row) × List Stmt :=
  if validateName tableName = false then (.fail "Failed to search data.", [])
  else
    match criteria with
    | none => (.fail "Failed to search data.", [])
    | some entries =>
      match buildConditions entries [] [] with
      | .error _ => (.fail "Failed to search data.", [])
      | .ok (conds, vals) =>
        let stmt : Stmt := ⟨searchSql tableName conds, vals.map Param.scalar⟩
        match db stmt with
        | .ok rows => (.ok rows, [stmt])
        | .error _ => (.fail "Failed to search data.", [stmt])

/-- Source `searchDataInTable`: the envelope alone. -/
def searchDataInTable (tableName : String) (criteria : Option (List (String × CritVal)))
    (db : Db) : Envelope (List Row) :=
  (searchRun tableName criteria db).1

/-- Spec-side first-operator selection, written from the words of the
specification: try `$lt`, then `$gt`, `$lte`, `$gte`, `$ne`, in that
fixed order; the first key present wins. -/
def specFirstOp (m : List (String × Value)) : Option (String × String × Value) :=
  match m.lookup "$lt" with
  | some v => some ("$lt", "<", v)
  | none =>
    match m.lookup "$gt" with
    | some v => some ("$gt", ">", v)
    | none =>
      match m.lookup "$lte" with
      | some v => some ("$lte", "<=", v)
      | none =>
        match m.lookup "$gte" with
        | some v => some ("$gte", ">=", v)
        | none =>
          match m.lookup "$ne" with
          | some v => some ("$ne", "<>", v)
          | none => none

/-- Spec-side condition for one criteria entry at condition position
`n` (zero-based): a scalar gives equality with placeholder `n + 1`; an
object gives the comparison of the first operator present, or the
UnsupportedOperator error. Written from the words of the specification. -/
def specCond (n : Nat) (key : String) : CritVal → Except String (Cond × Value)
  | .scalar v => .ok (⟨key, "=", n + 1⟩, v)
  | .obj m =>
    match specFirstOp m with
    | some (_, sqlOp, v) => .ok (⟨key, sqlOp, n + 1⟩, v)
    | none => .error ("Unsupported operator in criteria for key: " ++ key)

/-- Spec-side criteria translation: entries in declaration order, one
condition and one bound value each, placeholder numbers increasing from
`n + 1`. Written from the words of the specification. -/
def specBuild (n : Nat) : List (String × CritVal) → Except String (List Cond × List Value)
  | [] => .ok ([], [])
  | (key, cv) :: rest =>
    match specCond n key cv with
    | .error m => .error m
    | .ok (c, v) =>
      match specBuild (n + 1) rest with
      | .error m => .error m
      | .ok (cs, vs) => .ok (c :: cs, v :: vs)

/-- The `ids` argument of `removeDataFromTable`: a scalar or an array. -/
inductive IdsInput where
  | scalar (v : Value)
  | arr (l : List Value)
deriving Repr, DecidableEq

/-- Source input check and normalization of `removeDataFromTable`:
`!ids || (Array.isArray(ids) && ids.length === 0)` throws, then a
scalar is wrapped in a one-element list. -/
def normalizeIds : IdsInput → Except String (List Value)
  | .scalar v => if v.truthy = false then .error "No IDs provided." else .ok [v]
  | .arr l => if l.isEmpty then .error "No IDs provided." else .ok l

/-- The throwing body of `removeDataFromTable`; the id list is bound as
one array parameter for `id = ANY($1)`. -/
def removeBody (tableName : String) (ids : IdsInput) : Except String Stmt :=
  match validateNameE tableName with
  | .error e => .error e
  | .ok _ =>
    match normalizeIds ids with
    | .error e => .error e
    | .ok l => .ok ⟨"DELETE FROM " ++ tableName ++ " WHERE id = ANY($1) RETURNING *", [Param.array l]⟩

/-- Source `removeDataFromTable` with its try/catch and issued statements. -/
def removeDataFromTableRun (tableName : String) (ids : IdsInput) (db : Db) :
    Envelope (List Row) × List Stmt :=
  match removeBody tableName ids with
  | .error _ => (.fail "Failed to remove data.", [])
  | .ok stmt =>
    match db stmt with
    | .ok rows => (.ok rows, [stmt])
    | .error _ => (.fail "Failed to remove data.", [stmt])

/-- Source `removeDataFromTable`: the envelope alone. -/
def removeDataFromTable (tableName : String) (ids : IdsInput) (db : Db) : Envelope (List Row) :=
  (removeDataFromTableRun tableName ids db).1

/-- The allowed join kinds. -/
def allowedJoins : List String := ["INNER", "LEFT", "RIGHT", "FULL"]

/-- Source `joinTables` with its try/catch and issued statements;
`joinType = none` models a null join type (the `toUpperCase` TypeError
is caught), `onCondition = none` a missing/non-string condition; query
whitespace is normalized to single spaces. -/
def joinRun (table1 table2 : String) (joinType : Option String) (onCondition : Option String)
    (db : Db) : Envelope (List Row) × List Stmt :=
  match validateNameE table1 with
  | .error e => (.fail ("Failed to join tables: " ++ e), [])
  | .ok _ =>
    match validateNameE table2 with
    | .error e => (.fail ("Failed to join tables: " ++ e), [])
    | .ok _ =>
      match joinType with
      | none => (.fail "Failed to join tables: Cannot read properties of null (reading toUpperCase)", [])
      | some jt =>
        if (allowedJoins.contains (strToUpper jt)) = false then
          (.fail ("Failed to join tables: Invalid join type: " ++ jt ++ ". Allowed: INNER, LEFT, RIGHT, FULL"), [])
        else
          match onCondition with
          | none => (.fail "Failed to join tables: Join condition must be provided as a valid SQL condition string.", [])
          | some oc =>
            if oc == "" then
              (.fail "Failed to join tables: Join condition must be provided as a valid SQL condition string.", [])
            else
              let s : Stmt := ⟨"SELECT * FROM " ++ table1 ++ " " ++ strToUpper jt ++ " JOIN "
                                 ++ table2 ++ " ON " ++ oc, []⟩
              match db s with
              | .error e => (.fail ("Failed to join tables: " ++ e), [s])
              | .ok rows => (.ok rows, [s])

/-- Source `joinTables`: the envelope alone. -/
def joinTables (table1 table2 : String) (joinType : Option String) (onCondition : Option String)
    (db : Db) : Envelope (List Row) :=
  (joinRun table1 table2 joinType onCondition db).1

/-- A named table constraint as tracked by the database catalog: the
UNIQUE constraint added by the schema evolution engine, or any other
constraint that happens to bear the name. -/
inductive ConstraintDef where
  | uniqueOn (column : String)
  | other (descr : String)
deriving Repr, DecidableEq

/-- Database constraint state: the constraint, if any, bound to each
constraint name. Models the catalog state the ALTER statements act on. -/
def ConstraintState := String → Option ConstraintDef

/-- Effect of one ALTER statement on constraint state: DROP CONSTRAINT
IF EXISTS unbinds the name (a no-op when absent), ADD CONSTRAINT binds
it to the UNIQUE constraint; column-level alterations do not touch named
constraints. -/
def applyAlter (s : ConstraintState) : AlterStmt → ConstraintState
  | .dropConstraintIfExists _ n => fun m => if m = n then none else s m
  | .addUniqueConstraint _ n c => fun m => if m = n then some (ConstraintDef.uniqueOn c) else s m
  | _ => s

/-- Effect of a statement sequence on constraint state, in order. -/
def applyAlters (s : ConstraintState) (l : List AlterStmt) : ConstraintState :=
  l.foldl applyAlter s

/-- Boolean prefix test on character lists. -/
def chListPrefixOf : List Char → List Char → Bool
  | [], _ => true
  | _ :: _, [] => false
  | a :: as, b :: bs => a == b && chListPrefixOf as bs

/-- Boolean occurrence test of a pattern inside a character list. -/
def occursAux (pat : List Char) : List Char → Bool
  | [] => chListPrefixOf pat []
  | c :: rest => chListPrefixOf pat (c :: rest) || occursAux pat rest

/-- Boolean substring occurrence test on strings. -/
def strOccurs (pat s : String) : Bool :=
  occursAux pat.data s.data

lemma isIdentStartChar_iff (c : Char) :
    isIdentStartChar c = true ↔ (('A' ≤ c ∧ c ≤ 'Z') ∨ ('a' ≤ c ∧ c ≤ 'z') ∨ c = '_') := by
  simp [isIdentStartChar, Char.isAlpha, Char.isUpper, Char.isLower, Char.le_def, or_assoc]

lemma isIdentChar_iff (c : Char) :
    isIdentChar c = true ↔
      (('A' ≤ c ∧ c ≤ 'Z') ∨ ('a' ≤ c ∧ c ≤ 'z') ∨ ('0' ≤ c ∧ c ≤ '9') ∨ c = '_') := by
  simp [isIdentChar, Char.isAlphanum, Char.isAlpha, Char.isUpper, Char.isLower, Char.isDigit,
    Char.le_def, or_assoc]

lemma validateName_iff_spec (n : String) : validateName n = true ↔ specIdentMatch n := by
  unfold validateName specIdentMatch
  cases h : n.data with
  | nil => simp
  | cons c cs =>
    simp [Bool.and_eq_true, List.all_eq_true, isIdentStartChar_iff, isIdentChar_iff]

/-- C1: for every string `n`, the validator accepts `n` iff `n` matches
`[A-Za-z_][A-Za-z0-9_]*` (anchored), and otherwise it fails with the
InvalidIdentifier error; every operation that interpolates the name
then returns a failure envelope without issuing any database statement. -/
theorem spec_c1 :
    (∀ n : String, validateName n = true ↔ specIdentMatch n) ∧
    (∀ n : String, validateName n = false →
      validateNameE n = Except.error ("Invalid table/schema name: " ++ n)) ∧
    (∀ n : String, validateName n = false →
      ∀ (columns : Option (List ColumnSpec)) (data : InsertData)
        (updates : Option (List UpdateEntry)) (schemaChanges : Option (List SchemaChange))
        (criteria : Option (List (String × CritVal))) (ids : IdsInput)
        (t2 : String) (jt oc : Option String) (db : Db),
        createDynamicTableRun n columns db = (.fail ("Failed to create " ++ n ++ " table."), []) ∧
        addDataToTableRun n data db = (.fail "Failed to add data.", []) ∧
        updateRun n updates schemaChanges db
          = (.fail (updateFailMsg ("Invalid table/schema name: " ++ n)), []) ∧
        searchRun n criteria db = (.fail "Failed to search data.", []) ∧
        removeDataFromTableRun n ids db = (.fail "Failed to remove data.", []) ∧
        joinRun n t2 jt oc db = (.fail ("Failed to join tables: Invalid table/schema name: " ++ n), [])) := by
  refine ⟨validateName_iff_spec, ?_, ?_⟩
  · intro n h
    simp [validateNameE, h]
  · intro n h columns data updates schemaChanges criteria ids t2 jt oc db
    refine ⟨?_, ?_, ?_, ?_, ?_, ?_⟩
    · simp [createDynamicTableRun, createBody, validateNameE, h]
    · simp [addDataToTableRun, insertBody, validateNameE, h]
    · simp [updateRun, h]
    · simp [searchRun, h]
    · simp [removeDataFromTableRun, removeBody, validateNameE, h]
    · simp [joinRun, validateNameE, h]
      rw [← String.append_assoc]
      congr 1

/-- C1 witness: concrete acceptances and rejections, and the rejection
path of a concrete invalid name, obtained from `spec_c1`. -/
theorem spec_c1_witness :
    validateName "user_data" = true ∧
    validateName "2cool" = false ∧
    validateName "drop;table" = false ∧
    validateName "" = false ∧
    validateNameE "2cool" = Except.error "Invalid table/schema name: 2cool" ∧
    specIdentMatch "user_data" := by
  refine ⟨by decide, by decide, by decide, by decide, ?_, ?_⟩
  · exact spec_c1.2.1 "2cool" (by decide)
  · exact (spec_c1.1 "user_data").mp (by decide)

/-- C5: the merged column list is the three baseline columns first,
followed by exactly the caller columns whose names differ from all
baseline names; a caller column named `id` of type `text` is dropped and
the resulting `id` definition is the auto-increment integer primary key,
not text. -/
theorem spec_c5 :
    (∀ columns : List ColumnSpec,
      allColumns columns
        = defaultColumns ++ columns.filter
            (fun c => decide (∀ d ∈ defaultColumns, d.name ≠ c.name))) ∧
    allColumns [⟨"id", "text", false⟩] = defaultColumns ∧
    columnDefinitions (allColumns [⟨"id", "text", false⟩])
      = Except.ok "id SERIAL PRIMARY KEY, created_at TIMESTAMPTZ DEFAULT NOW(), updated_at TIMESTAMPTZ DEFAULT NOW()" := by
  refine ⟨?_, by decide, by rfl⟩
  intro columns
  unfold allColumns
  congr 1
  apply List.filter_congr
  intro c _
  rw [Bool.eq_iff_iff]
  simp [defaultColumns]

lemma rowPlaceholders_eq_range' (nCols i : Nat) :
    rowPlaceholders nCols i = List.range' (i * nCols + 1) nCols := by
  unfold rowPlaceholders
  rw [List.range'_eq_map_range]
  apply List.map_congr_left
  intro j _
  omega

lemma insertPlaceholderNums_eq (nRows nCols : Nat) :
    insertPlaceholderNums nRows nCols = List.range' 1 (nRows * nCols) := by
  induction nRows with
  | zero => simp [insertPlaceholderNums]
  | succ n ih =>
    unfold insertPlaceholderNums at ih ⊢
    rw [List.range_succ, List.flatMap_append, ih, List.flatMap_cons, List.flatMap_nil,
      List.append_nil, rowPlaceholders_eq_range']
    have h := List.range'_append 1 (n * nCols) nCols 1
    simp only [one_mul] at h
    rw [(by omega : n * nCols + 1 = 1 + n * nCols), h,
      (by rw [Nat.succ_mul]; omega : nCols + n * nCols = (n + 1) * nCols)]

lemma insertValues_getElem (nCols : Nat) :
    ∀ (rs : List Row), (∀ r ∈ rs, r.length = nCols) →
      ∀ i j, i < rs.length → j < nCols →
        (insertValues rs)[i * nCols + j]?
          = Option.map Prod.snd (rs[i]?.bind (fun r => r[j]?)) := by
  intro rs
  induction rs with
  | nil =>
    intro _ i j hi _
    exact absurd hi (by simp)
  | cons r rest ih =>
    intro h i j hi hj
    have hr : r.length = nCols := h r (List.mem_cons_self r rest)
    have hstep : insertValues (r :: rest) = r.map Prod.snd ++ insertValues rest := rfl
    have hlen : (r.map Prod.snd).length = nCols := by simp [hr]
    cases i with
    | zero =>
      rw [hstep, List.getElem?_append, if_pos (by simpa [hlen] using hj)]
      simp [List.getElem?_map, hj, hr]
    | succ i' =>
      have hexp : (i' + 1) * nCols = i' * nCols + nCols := Nat.succ_mul i' nCols
      rw [hstep, List.getElem?_append, if_neg (by omega)]
      rw [hlen, (by omega : (i' + 1) * nCols + j - nCols = i' * nCols + j)]
      rw [ih (fun x hx => h x (List.mem_cons_of_mem r hx)) i' j (by simpa using hi) hj]
      simp

/-- C2: a single row is normalized to a one-element list; an empty list
(or a falsy data argument) fails with the no-data error; the column set
comes from the first row's keys; the VALUES placeholders are numbered 1
through rows*columns in row-major order; and when all rows share the
first row's key set, the bound value list is the rows' values flattened
in the same row-major order. -/
theorem spec_c2 :
    (∀ r : Row, normalizeInsertData (InsertData.one r) = Except.ok [r]) ∧
    (∀ (tableName : String) (r : Row),
      insertBody tableName (InsertData.one r) = insertBody tableName (InsertData.many [r])) ∧
    (normalizeInsertData (InsertData.many []) = Except.error "No data provided." ∧
     normalizeInsertData InsertData.nullData = Except.error "No data provided.") ∧
    (∀ (r0 : Row) (rest : List Row), insertColumns (r0 :: rest) = r0.map Prod.fst) ∧
    (∀ nRows nCols : Nat, insertPlaceholderNums nRows nCols = List.range' 1 (nRows * nCols)) ∧
    (∀ (tableName : String) (rs : List Row),
      (buildInsertStmt tableName rs).params = (insertValues rs).map Param.scalar) ∧
    (∀ rs : List Row,
      (∀ r ∈ rs, r.map Prod.fst = insertColumns rs) →
      ∀ i j, i < rs.length → j < (insertColumns rs).length →
        (insertValues rs)[i * (insertColumns rs).length + j]?
          = Option.map Prod.snd (rs[i]?.bind (fun r => r[j]?))) := by
  refine ⟨fun r => rfl, fun t r => rfl, ⟨rfl, rfl⟩, fun r0 rest => rfl,
    insertPlaceholderNums_eq, fun t rs => rfl, ?_⟩
  intro rs h i j hi hj
  apply insertValues_getElem (insertColumns rs).length rs ?_ i j hi hj
  intro r hr
  have := congrArg List.length (h r hr)
  simpa using this

/-- C2 witness: for two two-column rows the bound value at row-major
position `1 * 2 + 0` is the first value of the second row. -/
theorem spec_c2_witness :
    (insertValues [[("a", Value.num 1), ("b", Value.num 2)],
                   [("a", Value.num 3), ("b", Value.num 4)]])[2]? = some (Value.num 3) := by
  have h := spec_c2.2.2.2.2.2.2
    [[("a", Value.num 1), ("b", Value.num 2)], [("a", Value.num 3), ("b", Value.num 4)]]
    (by intro r hr; fin_cases hr <;> rfl) 1 0 (by decide) (by decide)
  simpa using h

lemma setClauseParts_snd (r : Row) :
    (setClauseParts r).map Prod.snd = List.range' 1 r.length := by
  unfold setClauseParts
  simp only [List.map_map, Function.comp_def, List.range'_eq_map_range]
  conv_rhs => rw [← List.enum_map_fst r]
  rw [List.map_map]
  apply List.map_congr_left
  intro p _
  simp [Nat.add_comm]

lemma setClauseParts_fst (r : Row) :
    (setClauseParts r).map Prod.fst = r.map Prod.fst := by
  unfold setClauseParts
  simp only [List.map_map, Function.comp_def]
  conv_rhs => rw [← List.enum_map_snd r]
  rw [List.map_map]
  rfl

lemma mapExcept_ok_getElem {α β ε : Type} (f : α → Except ε β) :
    ∀ (l : List α) (ys : List β), mapExcept f l = Except.ok ys →
      ∀ k (hk : k < l.length), ∃ y, ys[k]? = some y ∧ f (l.get ⟨k, hk⟩) = Except.ok y := by
  intro l
  induction l with
  | nil =>
    intro ys _ k hk
    exact absurd hk (by simp)
  | cons a as ih =>
    intro ys hok k hk
    unfold mapExcept at hok
    cases hfa : f a with
    | error e => rw [hfa] at hok; exact absurd hok (by simp)
    | ok b =>
      rw [hfa] at hok
      cases hrest : mapExcept f as with
      | error e => rw [hrest] at hok; exact absurd hok (by simp)
      | ok bs =>
        rw [hrest] at hok
        have hys : b :: bs = ys := by simpa using hok
        subst hys
        cases k with
        | zero => exact ⟨b, by simp, by simpa using hfa⟩
        | succ k2 =>
          obtain ⟨y, hy1, hy2⟩ := ih bs hrest k2 (by simpa using hk)
          exact ⟨y, by simpa using hy1, by simpa using hy2⟩

/-- C3: an update entry fails with the InvalidUpdate error unless it has
a truthy id and a non-empty data mapping; a valid entry with `k` data
columns yields `UPDATE <table> SET col1=$1..colk=$k, updated_at=NOW()
WHERE id=$(k+1) RETURNING *` with the data values in key order followed
by the id; and in a batch the statement at position `k` is built from
entry `k` alone, so numbering restarts at `$1` for every entry. -/
theorem spec_c3 :
    (∀ (tableName : String) (e : UpdateEntry),
      (e.id.truthy = false ∨ e.data = none ∨ e.data = some []) →
      buildUpdateStmt tableName e
        = Except.error "Each update must have an \"id\" and non-empty \"data\".") ∧
    (∀ (tableName : String) (id : Value) (r : Row),
      id.truthy = true → r ≠ [] →
      buildUpdateStmt tableName ⟨id, some r⟩
        = Except.ok ⟨"UPDATE " ++ tableName ++ " SET "
             ++ ", ".intercalate ((setClauseParts r).map renderSetPart)
             ++ ", updated_at = NOW() WHERE id = $" ++ toString (r.length + 1)
             ++ " RETURNING *",
           r.map (fun p => Param.scalar p.2) ++ [Param.scalar id]⟩) ∧
    (∀ r : Row,
      (setClauseParts r).map Prod.snd = List.range' 1 r.length ∧
      (setClauseParts r).map Prod.fst = r.map Prod.fst) ∧
    (∀ (tableName : String) (us : List UpdateEntry) (ys : List Stmt),
      buildUpdateStmts tableName us = Except.ok ys →
      ∀ k (hk : k < us.length),
        ∃ s, ys[k]? = some s ∧ buildUpdateStmt tableName (us.get ⟨k, hk⟩) = Except.ok s) := by
  refine ⟨?_, ?_, fun r => ⟨setClauseParts_snd r, setClauseParts_fst r⟩, ?_⟩
  · intro t e h
    unfold buildUpdateStmt
    rcases h with h | h | h
    · simp [h]
    · rw [h]; split <;> rfl
    · rw [h]; split <;> simp
  · intro t id r hid hr
    have hie : r.isEmpty = false := by
      cases r with
      | nil => exact absurd rfl hr
      | cons a as => rfl
    simp [buildUpdateStmt, hid, hie]
  · intro t us ys h k hk
    exact mapExcept_ok_getElem (buildUpdateStmt t) us ys h k hk

/-- C3 witness: a concrete valid entry with two data columns produces
the locally numbered statement `$1, $2` with the id bound at `$3`. -/
theorem spec_c3_witness :
    buildUpdateStmt "t1" ⟨Value.num 7, some [("a", Value.num 1), ("b", Value.str "x")]⟩
      = Except.ok ⟨"UPDATE t1 SET a = $1, b = $2, updated_at = NOW() WHERE id = $3 RETURNING *",
          [Param.scalar (Value.num 1), Param.scalar (Value.str "x"), Param.scalar (Value.num 7)]⟩ := by
  have h := spec_c3.2.1 "t1" (Value.num 7) [("a", Value.num 1), ("b", Value.str "x")]
    (by decide) (by decide)
  exact h

lemma findOp_eq_spec (m : List (String × Value)) :
    findOp operators m = specFirstOp m := by
  unfold specFirstOp
  cases h1 : List.lookup "$lt" m <;> cases h2 : List.lookup "$gt" m <;>
    cases h3 : List.lookup "$lte" m <;> cases h4 : List.lookup "$gte" m <;>
    cases h5 : List.lookup "$ne" m <;>
    simp [operators, findOp, h1, h2, h3, h4, h5]

lemma buildConditions_append :
    ∀ (entries : List (String × CritVal)) (conds : List Cond) (vals : List Value),
      buildConditions entries conds vals
        = match specBuild vals.length entries with
          | .ok (cs, vs) => .ok (conds ++ cs, vals ++ vs)
          | .error m => .error m := by
  intro entries
  induction entries with
  | nil =>
    intro conds vals
    simp [buildConditions, specBuild]
  | cons e rest ih =>
    intro conds vals
    obtain ⟨key, cv⟩ := e
    cases cv with
    | scalar v =>
      rw [show buildConditions ((key, CritVal.scalar v) :: rest) conds vals
            = buildConditions rest (conds ++ [⟨key, "=", vals.length + 1⟩]) (vals ++ [v])
          from rfl]
      rw [ih]
      rw [show (vals ++ [v]).length = vals.length + 1 from by simp]
      rw [show specBuild vals.length ((key, CritVal.scalar v) :: rest)
            = match specBuild (vals.length + 1) rest with
              | .error m => .error m
              | .ok (cs, vs) => .ok (⟨key, "=", vals.length + 1⟩ :: cs, v :: vs)
          from rfl]
      cases hsb : specBuild (vals.length + 1) rest with
      | error m => simp
      | ok p =>
        obtain ⟨cs, vs⟩ := p
        simp
    | obj m =>
      have hfs := findOp_eq_spec m
      cases hf : findOp operators m with
      | none =>
        rw [show buildConditions ((key, CritVal.obj m) :: rest) conds vals
              = match findOp operators m with
                | some (_, sqlOp, v) =>
                  buildConditions rest (conds ++ [⟨key, sqlOp, vals.length + 1⟩]) (vals ++ [v])
                | none => .error ("Unsupported operator in criteria for key: " ++ key)
            from rfl]
        rw [hf]
        rw [show specBuild vals.length ((key, CritVal.obj m) :: rest)
              = match specCond vals.length key (CritVal.obj m) with
                | .error m2 => .error m2
                | .ok (c, v) =>
                  match specBuild (vals.length + 1) rest with
                  | .error m2 => .error m2
                  | .ok (cs, vs) => .ok (c :: cs, v :: vs)
            from rfl]
        rw [show specCond vals.length key (CritVal.obj m)
              = match specFirstOp m with
                | some (_, sqlOp, v) => .ok (⟨key, sqlOp, vals.length + 1⟩, v)
                | none => .error ("Unsupported operator in criteria for key: " ++ key)
            from rfl]
        rw [← hfs, hf]
      | some t =>
        obtain ⟨op, sqlOp, v⟩ := t
        rw [show buildConditions ((key, CritVal.obj m) :: rest) conds vals
              = match findOp operators m with
                | some (_, sqlOp, v) =>
                  buildConditions rest (conds ++ [⟨key, sqlOp, vals.length + 1⟩]) (vals ++ [v])
                | none => .error ("Unsupported operator in criteria for key: " ++ key)
            from rfl]
        rw [hf]
        dsimp only
        rw [ih]
        rw [show (vals ++ [v]).length = vals.length + 1 from by simp]
        rw [show specBuild vals.length ((key, CritVal.obj m) :: rest)
              = match specCond vals.length key (CritVal.obj m) with
                | .error m2 => .error m2
                | .ok (c, v) =>
                  match specBuild (vals.length + 1) rest with
                  | .error m2 => .error m2
                  | .ok (cs, vs) => .ok (c :: cs, v :: vs)
            from rfl]
        rw [show specCond vals.length key (CritVal.obj m)
              = match specFirstOp m with
                | some (_, sqlOp, v) => .ok (⟨key, sqlOp, vals.length + 1⟩, v)
                | none => .error ("Unsupported operator in criteria for key: " ++ key)
            from rfl]
        rw [← hfs, hf]
        cases hsb : specBuild (vals.length + 1) rest with
        | error m2 => simp
        | ok p =>
          obtain ⟨cs, vs⟩ := p
          simp

lemma specCond_idx (n : Nat) (key : String) (cv : CritVal) (c : Cond) (v : Value)
    (h : specCond n key cv = Except.ok (c, v)) : c.idx = n + 1 := by
  cases cv with
  | scalar w =>
    simp [specCond] at h
    rw [← h.1]
  | obj m =>
    rw [show specCond n key (CritVal.obj m)
          = match specFirstOp m with
            | some (_, sqlOp, v) => Except.ok (⟨key, sqlOp, n + 1⟩, v)
            | none => Except.error ("Unsupported operator in criteria for key: " ++ key)
        from rfl] at h
    cases hf : specFirstOp m with
    | none => rw [hf] at h; exact absurd h (by simp)
    | some t =>
      obtain ⟨op, sqlOp, w⟩ := t
      rw [hf] at h
      simp at h
      rw [← h.1]

lemma specBuild_ok :
    ∀ (entries : List (String × CritVal)) (n : Nat) (cs : List Cond) (vs : List Value),
      specBuild n entries = Except.ok (cs, vs) →
      cs.map Cond.idx = List.range' (n + 1) entries.length ∧
      cs.length = entries.length ∧ vs.length = entries.length := by
  intro entries
  induction entries with
  | nil =>
    intro n cs vs h
    simp [specBuild] at h
    obtain ⟨h1, h2⟩ := h
    subst h1
    subst h2
    simp
  | cons e rest ih =>
    intro n cs vs h
    obtain ⟨key, cv⟩ := e
    unfold specBuild at h
    cases hc : specCond n key cv with
    | error m => rw [hc] at h; exact absurd h (by simp)
    | ok p =>
      obtain ⟨c, v⟩ := p
      rw [hc] at h
      cases hsb : specBuild (n + 1) rest with
      | error m => rw [hsb] at h; exact absurd h (by simp)
      | ok q =>
        obtain ⟨cs2, vs2⟩ := q
        rw [hsb] at h
        simp at h
        obtain ⟨hcs, hvs⟩ := h
        subst hcs
        subst hvs
        obtain ⟨h1, h2, h3⟩ := ih (n + 1) cs2 vs2 hsb
        refine ⟨?_, by simp [h2], by simp [h3]⟩
        have hcidx := specCond_idx n key cv c v hc
        simp [List.range', h1, hcidx]

/-- C4: empty criteria yields a query with no WHERE clause; the criteria
traversal refines the spec-side translation (scalar entries give
`col = $n`, object entries give the comparison of the first operator
found among the five in the fixed order, and fail with the
UnsupportedOperator error when none is present); conditions are joined
with AND; and placeholder indices increase monotonically from 1 across
all conditions in declaration order. -/
theorem spec_c4 :
    (∀ tableName : String, searchSql tableName [] = "SELECT * FROM " ++ tableName) ∧
    (∀ m : List (String × Value), findOp operators m = specFirstOp m) ∧
    (∀ entries : List (String × CritVal), buildConditions entries [] [] = specBuild 0 entries) ∧
    (∀ (entries : List (String × CritVal)) (cs : List Cond) (vs : List Value),
      buildConditions entries [] [] = Except.ok (cs, vs) →
      cs.map Cond.idx = List.range' 1 cs.length ∧ vs.length = cs.length) ∧
    (∀ (tableName : String) (cs : List Cond), cs ≠ [] →
      searchSql tableName cs
        = "SELECT * FROM " ++ tableName ++ " WHERE " ++ " AND ".intercalate (cs.map renderCond)) := by
  have hmain : ∀ entries : List (String × CritVal),
      buildConditions entries [] [] = specBuild 0 entries := by
    intro entries
    rw [buildConditions_append entries [] []]
    cases h : specBuild 0 entries with
    | error m => simp [(rfl : ([] : List Value).length = 0)] at h ⊢; rw [h]
    | ok p =>
      obtain ⟨cs, vs⟩ := p
      simp [(rfl : ([] : List Value).length = 0)] at h ⊢
      rw [h]
  refine ⟨fun t => by simp [searchSql], findOp_eq_spec, hmain, ?_, ?_⟩
  · intro entries cs vs h
    rw [hmain entries] at h
    obtain ⟨h1, h2, h3⟩ := specBuild_ok entries 0 cs vs h
    exact ⟨by rw [h1, h2], by rw [h3, h2]⟩
  · intro t cs h
    have hie : cs.isEmpty = false := by
      cases cs with
      | nil => exact absurd rfl h
      | cons a as => rfl
    simp [searchSql, hie, String.append_assoc]

/-- C4 witness: two concrete criteria entries, the second naming both
`$gte` and `$lt`; `$lt` (earlier in the fixed order) wins, the
conditions carry placeholders 1 and 2, and the bound values follow
declaration order. -/
theorem spec_c4_witness :
    buildConditions [("a", CritVal.scalar (Value.num 5)),
                     ("b", CritVal.obj [("$gte", Value.num 1), ("$lt", Value.num 9)])] [] []
      = Except.ok ([⟨"a", "=", 1⟩, ⟨"b", "<", 2⟩], [Value.num 5, Value.num 9]) ∧
    ([⟨"a", "=", 1⟩, ⟨"b", "<", 2⟩] : List Cond).map Cond.idx = List.range' 1 2 := by
  have h := spec_c4.2.2.2.1
    [("a", CritVal.scalar (Value.num 5)),
     ("b", CritVal.obj [("$gte", Value.num 1), ("$lt", Value.num 9)])]
    [⟨"a", "=", 1⟩, ⟨"b", "<", 2⟩] [Value.num 5, Value.num 9] (by rfl)
  exact ⟨by rfl, by simpa using h.1⟩

lemma envelope_shape {α : Type} (e : Envelope α) : isEnvelopeResult e := by
  cases e with
  | ok d => exact Or.inl ⟨d, rfl⟩
  | fail m => exact Or.inr ⟨m, rfl⟩

/-- C6: each of the seven exposed operations returns a success-or-failure
envelope for every input, including malformed ones (null criteria, null
join type, non-array updates), never propagating an exception; the
sampled malformed inputs each produce a failure envelope. -/
theorem spec_c6 :
    (∀ (schemaName : String) (columns : Option (List ColumnSpec)) (db : Db),
      isEnvelopeResult (createDynamicTable schemaName columns db)) ∧
    (∀ (tableName : String) (db : Db), isEnvelopeResult (getTableColumns tableName db)) ∧
    (∀ (tableName : String) (data : InsertData) (db : Db),
      isEnvelopeResult (addDataToTable tableName data db)) ∧
    (∀ (tableName : String) (updates : Option (List UpdateEntry))
       (schemaChanges : Option (List SchemaChange)) (db : Db),
      isEnvelopeResult (updateDataInTable tableName updates schemaChanges db)) ∧
    (∀ (tableName : String) (criteria : Option (List (String × CritVal))) (db : Db),
      isEnvelopeResult (searchDataInTable tableName criteria db)) ∧
    (∀ (tableName : String) (ids : IdsInput) (db : Db),
      isEnvelopeResult (removeDataFromTable tableName ids db)) ∧
    (∀ (t1 t2 : String) (jt oc : Option String) (db : Db),
      isEnvelopeResult (joinTables t1 t2 jt oc db)) ∧
    (∀ db : Db, searchDataInTable "t1" none db = Envelope.fail "Failed to search data.") ∧
    (∀ db : Db, updateDataInTable "t1" none (some []) db = Envelope.fail nullLengthMsg) ∧
    (∀ db : Db, joinTables "t1" "t2" none (some "a = b") db
      = Envelope.fail "Failed to join tables: Cannot read properties of null (reading toUpperCase)") := by
  refine ⟨fun a b c => envelope_shape _, fun a b => envelope_shape _,
    fun a b c => envelope_shape _, fun a b c d => envelope_shape _,
    fun a b c => envelope_shape _, fun a b c => envelope_shape _,
    fun a b c d e => envelope_shape _, fun db => rfl, fun db => rfl, fun db => rfl⟩

/-- C7 counterexample: with a store that fails reporting
`connection lost`, a valid `update` call returns a failure envelope
whose message is exactly the store's error text, not the generic
update failure message — so the claim is false for the update path. -/
theorem spec_c7_counterexample :
    updateDataInTable "t1" (some [⟨Value.num 1, some [("a", Value.num 2)]⟩]) (some [])
        (fun _ => Except.error "connection lost")
      = Envelope.fail "connection lost" ∧
    "connection lost" ≠ "Failed to update data/schema." := by
  exact ⟨rfl, by decide⟩

/-- C7 amended: on a store error, `insert` and `remove` return generic
failure messages independent of the store's error text; `update`,
however, surfaces the store's error message verbatim, falling back to
the generic message only when the store's message is empty. -/
theorem spec_c7_amended :
    (∀ e : String,
      addDataToTable "t1" (InsertData.one [("a", Value.num 1)]) (fun _ => Except.error e)
        = Envelope.fail "Failed to add data.") ∧
    (∀ e : String,
      removeDataFromTable "t1" (IdsInput.arr [Value.num 1]) (fun _ => Except.error e)
        = Envelope.fail "Failed to remove data.") ∧
    (∀ e : String, e ≠ "" →
      updateDataInTable "t1" (some [⟨Value.num 1, some [("a", Value.num 2)]⟩]) (some [])
          (fun _ => Except.error e)
        = Envelope.fail e) ∧
    (updateDataInTable "t1" (some [⟨Value.num 1, some [("a", Value.num 2)]⟩]) (some [])
        (fun _ => Except.error "")
      = Envelope.fail "Failed to update data/schema.") := by
  refine ⟨fun e => rfl, fun e => rfl, ?_, rfl⟩
  intro e he
  have h1 : updateDataInTable "t1" (some [⟨Value.num 1, some [("a", Value.num 2)]⟩]) (some [])
      (fun _ => Except.error e) = Envelope.fail (updateFailMsg e) := rfl
  rw [h1]
  simp [updateFailMsg, he]

/-- C7 amended witness: the update path at the concrete store error
`boom` returns exactly `boom`. -/
theorem spec_c7_amended_witness :
    updateDataInTable "t1" (some [⟨Value.num 1, some [("a", Value.num 2)]⟩]) (some [])
        (fun _ => Except.error "boom")
      = Envelope.fail "boom" := by
  exact spec_c7_amended.2.2.1 "boom" (by decide)

lemma columnDef_unsupported (c : ColumnSpec) (h : c.type ∉ supportedTypes) :
    columnDef c = Except.error ("Unsupported column type: " ++ c.type) := by
  unfold columnDef
  split
  all_goals first
    | (rename_i heq; exact absurd (by rw [heq]; decide) h)
    | rfl

lemma mapExcept_error_of_mem {α β ε : Type} (f : α → Except ε β) :
    ∀ (l : List α) (x : α), x ∈ l → (∀ y, f x ≠ Except.ok y) →
      ∃ m, mapExcept f l = Except.error m := by
  intro l
  induction l with
  | nil =>
    intro x hx _
    exact absurd hx (by simp)
  | cons a as ih =>
    intro x hx hfx
    unfold mapExcept
    cases hfa : f a with
    | error e => exact ⟨e, rfl⟩
    | ok b =>
      rcases List.mem_cons.mp hx with h | h
      · subst h
        exact absurd hfa (hfx b)
      · obtain ⟨m, hm⟩ := ih x h hfx
        rw [hm]
        exact ⟨m, rfl⟩

/-- C8 counterexample: creating a table with a column of the unsupported
type `json` issues no statement and fails — but the failure envelope's
message is the generic creation failure text, which does not contain the
type name, so the reported-verbatim half of the claim is false. -/
theorem spec_c8_counterexample :
    createDynamicTableRun "widgets" (some [⟨"x", "json", false⟩]) (fun _ => Except.ok [])
      = (Envelope.fail "Failed to create widgets table.", []) ∧
    strOccurs "json" "Failed to create widgets table." = false := by
  exact ⟨rfl, by rfl⟩

/-- C8 amended: a createTable call whose column list contains a column
with a type outside the supported vocabulary (and whose name is not
shadowed by a baseline column) fails before any statement is issued,
but the envelope message is the generic `Failed to create <name>
table.`; the unsupported type name is only part of the internal thrown
error, not of the envelope. -/
theorem spec_c8_amended :
    ∀ (schemaName : String) (cols : List ColumnSpec) (db : Db),
      validateName schemaName = true →
      cols ≠ [] →
      (∃ c ∈ cols, (c.name ≠ "id" ∧ c.name ≠ "created_at" ∧ c.name ≠ "updated_at")
        ∧ c.type ∉ supportedTypes) →
      createDynamicTableRun schemaName (some cols) db
        = (Envelope.fail ("Failed to create " ++ schemaName ++ " table."), []) := by
  intro t cols db hv hne hex
  obtain ⟨c, hc, hname, htype⟩ := hex
  have hie : cols.isEmpty = false := by
    cases cols with
    | nil => exact absurd rfl hne
    | cons a as => rfl
  have hcf : c ∈ allColumns cols := by
    unfold allColumns
    apply List.mem_append_right
    apply List.mem_filter.mpr
    refine ⟨hc, ?_⟩
    simp [defaultColumns]
    exact ⟨fun hh => hname.1 hh.symm, fun hh => hname.2.1 hh.symm, fun hh => hname.2.2 hh.symm⟩
  obtain ⟨m2, hm2⟩ := mapExcept_error_of_mem columnDef (allColumns cols) c hcf
    (fun y => by rw [columnDef_unsupported c htype]; simp)
  have hcd : columnDefinitions (allColumns cols) = Except.error m2 := by
    unfold columnDefinitions
    rw [hm2]
  have hbody : createBody t (some cols) = Except.error m2 := by
    simp [createBody, validateNameE, hv, hie, hcd]
  simp [createDynamicTableRun, hbody]

/-- C8 amended witness: the concrete `json` column instantiates the
amended claim. -/
theorem spec_c8_witness :
    createDynamicTableRun "widgets" (some [⟨"y", "jsonb", false⟩]) (fun _ => Except.ok [])
      = (Envelope.fail "Failed to create widgets table.", []) := by
  have h := spec_c8_amended "widgets" [⟨"y", "jsonb", false⟩] (fun _ => Except.ok [])
    (by decide) (by decide)
    ⟨⟨"y", "jsonb", false⟩, by simp, ⟨by decide, by decide, by decide⟩, by decide⟩
  exact h

/-- C9: a schema change with constraint UNIQUE (and no type change)
emits exactly the pair: drop the constraint named
`<table>_<column>_constraint` if it exists, then add a UNIQUE constraint
on the column under that same name, rendered as the two ALTER TABLE
statements; on constraint state, applying the pair twice equals applying
it once (idempotence), and after one application the generated name is
bound to the UNIQUE constraint regardless of any constraint that
previously bore that name. -/
theorem spec_c9 :
    ∀ (tableName column : String), column ≠ "" →
      (buildAlterQueries tableName ⟨column, none, some "UNIQUE"⟩
        = Except.ok [AlterStmt.dropConstraintIfExists tableName (constraintNameOf tableName column),
                     AlterStmt.addUniqueConstraint tableName (constraintNameOf tableName column) column]) ∧
      ((AlterStmt.dropConstraintIfExists tableName (constraintNameOf tableName column)).render
         = "ALTER TABLE " ++ tableName ++ " DROP CONSTRAINT IF EXISTS "
             ++ constraintNameOf tableName column ∧
       (AlterStmt.addUniqueConstraint tableName (constraintNameOf tableName column) column).render
         = "ALTER TABLE " ++ tableName ++ " ADD CONSTRAINT " ++ constraintNameOf tableName column
             ++ " UNIQUE (" ++ column ++ ")") ∧
      (∀ s : ConstraintState,
        applyAlters (applyAlters s
            [AlterStmt.dropConstraintIfExists tableName (constraintNameOf tableName column),
             AlterStmt.addUniqueConstraint tableName (constraintNameOf tableName column) column])
          [AlterStmt.dropConstraintIfExists tableName (constraintNameOf tableName column),
           AlterStmt.addUniqueConstraint tableName (constraintNameOf tableName column) column]
        = applyAlters s
            [AlterStmt.dropConstraintIfExists tableName (constraintNameOf tableName column),
             AlterStmt.addUniqueConstraint tableName (constraintNameOf tableName column) column]) ∧
      (∀ s : ConstraintState,
        applyAlters s
            [AlterStmt.dropConstraintIfExists tableName (constraintNameOf tableName column),
             AlterStmt.addUniqueConstraint tableName (constraintNameOf tableName column) column]
          (constraintNameOf tableName column)
        = some (ConstraintDef.uniqueOn column)) := by
  intro t c hc
  have hb : (c == "") = false := by simp [hc]
  refine ⟨?_, ⟨rfl, rfl⟩, ?_, ?_⟩
  · simp [buildAlterQueries, hb, optTruthy]
    rfl
  · intro s
    funext nm
    by_cases hnm : nm = constraintNameOf t c <;> simp [applyAlters, applyAlter, hnm]
  · intro s
    simp [applyAlters, applyAlter]

/-- C9 witness: the concrete table `users` and column `email` give the
generated name `users_email_constraint` and the exact statement pair. -/
theorem spec_c9_witness :
    buildAlterQueries "users" ⟨"email", none, some "UNIQUE"⟩
      = Except.ok [AlterStmt.dropConstraintIfExists "users" (constraintNameOf "users" "email"),
                   AlterStmt.addUniqueConstraint "users" (constraintNameOf "users" "email") "email"] ∧
    constraintNameOf "users" "email" = "users_email_constraint" := by
  exact ⟨(spec_c9 "users" "email" (by decide)).1, rfl⟩

/-- C10: a remove call whose ids argument is a falsy scalar (0, empty
string, false or null) fails with the no-IDs-provided error and issues
no DELETE statement, even though the input is not an empty list. -/
theorem spec_c10 :
    ∀ (tableName : String) (v : Value) (db : Db),
      validateName tableName = true → Value.truthy v = false →
      removeBody tableName (IdsInput.scalar v) = Except.error "No IDs provided." ∧
      removeDataFromTableRun tableName (IdsInput.scalar v) db
        = (Envelope.fail "Failed to remove data.", []) := by
  intro t v db hv htr
  have hbody : removeBody t (IdsInput.scalar v) = Except.error "No IDs provided." := by
    simp [removeBody, validateNameE, hv, normalizeIds, htr]
  exact ⟨hbody, by simp [removeDataFromTableRun, hbody]⟩

/-- C10 witness: `remove("widgets", 0)` fails and issues no DELETE, so
the row with id 0 is never deleted. -/
theorem spec_c10_witness :
    removeDataFromTableRun "widgets" (IdsInput.scalar (Value.num 0)) (fun _ => Except.ok [])
      = (Envelope.fail "Failed to remove data.", []) := by
  exact (spec_c10 "widgets" (Value.num 0) (fun _ => Except.ok []) (by decide) (by decide)).2
